import Mathlib

/-!
Shallow embedding of the conversation-memory and report pipeline of the
financial-advisory chat backend
(`src/backend/src/services/memoryManager.ts`, `src/backend/src/services/reportService.ts`).

Modelling conventions:
* JS `Date` values are natural-number timestamps.  Each call of a service
  method executes at a single instant `now`, supplied as a parameter; every
  `new Date()` / `Date.now()` read inside that one synchronous call observes
  that instant.  Distinct calls may observe equal instants (`Date.now()` has
  millisecond resolution).
* A JS `Map<string, V>` is a function `String → Option V`.
* Calls into the external LLM backend (`openai.chat.completions.create`) are
  modelled by an oracle value of type `Except Unit (Option String)`: the call
  either throws (`.error`), or resolves and
  `completion.choices[0]?.message?.content` is the contained `Option String`
  (`none` models a null/absent content).  The prompt strings assembled by the
  code are inputs to that external call only, so they are absorbed by the
  oracle.  Functions that may consult the oracle also return the number of
  inference calls they performed.
* The Chroma vector store (`Long-Term Index`) is the list of documents added
  to it, in insertion order.  JS numbers that hold dollar amounts are
  modelled as naturals, and chart percentages as rationals.
-/

namespace Friedmann

/-- The two message roles of `ConversationMessage` in `memoryManager.ts`. -/
inductive Role where
  | user
  | assistant
deriving DecidableEq, Repr

/-- The metadata string the source attaches to an indexed document
(`'user'` or `'assistant'`). -/
def roleString : Role → String
  | .user => "user"
  | .assistant => "assistant"

/-- `ConversationMessage` from `memoryManager.ts`: role, content and the
`new Date()` timestamp taken when the message was appended. -/
structure ConversationMessage where
  role : Role
  content : String
  timestamp : Nat
deriving DecidableEq, Repr

/-- The metadata record attached to each document written to the vector
store in `MemoryManager.addMessage`. -/
structure DocMetadata where
  conversationId : String
  role : String
  timestamp : Nat
deriving DecidableEq, Repr

/-- One document added to the Chroma vector store:
`{ pageContent, metadata }`. -/
structure VectorDoc where
  pageContent : String
  metadata : DocMetadata
deriving DecidableEq, Repr

/-- The mutable state of a `MemoryManager` instance:
`conversationHistories`, `conversationSummaries`, `pendingUserMessages`
(all `Map<string, _>`), and the vector store contents in insertion order. -/
structure MemState where
  conversationHistories : String → Option (List ConversationMessage)
  conversationSummaries : String → Option String
  pendingUserMessages : String → Option String
  vectorstore : List VectorDoc

/-- `Map.set`: point update of a string-keyed map. -/
def mapSet {α : Type} (m : String → Option α) (k : String) (v : α) :
    String → Option α :=
  fun k' => if k' = k then some v else m k'

/-- `Map.delete`: point removal from a string-keyed map. -/
def mapDelete {α : Type} (m : String → Option α) (k : String) :
    String → Option α :=
  fun k' => if k' = k then none else m k'

/-- The first phase of `addMessage`: create the history entry if absent and
push the new message (`conversationHistory.push({role, content, timestamp})`). -/
def appendHistory (st : MemState) (conversationId : String) (role : Role)
    (message : String) (now : Nat) : MemState :=
  { st with
    conversationHistories :=
      mapSet st.conversationHistories conversationId
        ((st.conversationHistories conversationId).getD [] ++
          [⟨role, message, now⟩]) }

/-- `MemoryManager.addMessage(conversationId, role, message)`.
After appending to the history: a user message overwrites the pending slot
for its conversation; an assistant message looks up the pending slot and
runs the source's `if (userMessage)` TRUTHINESS check — the retrieved value
is truthy only when it is defined and not the empty string — and if truthy
adds the user/assistant document pair to the vector store (both tagged with
the conversation id, their role string, and the call instant) and deletes
the pending entry; a missing or empty-string pending value changes nothing
further. -/
def addMessage (st : MemState) (conversationId : String) :
    Role → String → Nat → MemState
  | .user, message, now =>
    let st1 := appendHistory st conversationId .user message now
    { st1 with
      pendingUserMessages := mapSet st1.pendingUserMessages conversationId message }
  | .assistant, message, now =>
    let st1 := appendHistory st conversationId .assistant message now
    match st1.pendingUserMessages conversationId with
    | some userMessage =>
      if userMessage ≠ "" then
        { st1 with
          vectorstore := st1.vectorstore ++
            [⟨userMessage, ⟨conversationId, roleString .user, now⟩⟩,
             ⟨message, ⟨conversationId, roleString .assistant, now⟩⟩],
          pendingUserMessages := mapDelete st1.pendingUserMessages conversationId }
      else st1
    | none => st1

/-- `MemoryManager.getConversationHistory`: the stored sequence, or `[]` for
an unknown conversation (`this.conversationHistories.get(conversationId) || []`). -/
def getConversationHistory (st : MemState) (conversationId : String) :
    List ConversationMessage :=
  (st.conversationHistories conversationId).getD []

/-- One raw result delivered by `vectorstore.similaritySearch`. -/
structure SearchHit where
  pageContent : String
  metadata : DocMetadata
  score : Option ℚ
deriving DecidableEq, Repr

/-- The shape `searchConversations` maps each raw result to. -/
structure SearchResult where
  content : String
  metadata : DocMetadata
  score : Option ℚ
deriving DecidableEq, Repr

/-- `MemoryManager.searchConversations(query, conversationId?, limit)`.
The embedding-backend call is external; `outcome` is its result: either a
thrown failure (with its message) or the list of hits.  The hits are mapped
to `{content, metadata, score}`; a failure is caught and mapped to `[]`. -/
def searchConversations (query : String) (conversationId : Option String)
    (limit : Nat) (outcome : Except String (List SearchHit)) :
    List SearchResult :=
  match outcome with
  | .ok results => results.map (fun r => ⟨r.pageContent, r.metadata, r.score⟩)
  | .error _ => []

/-- JS `x || fallback` applied to an optional string: `none` (null) and the
empty string are falsy and select the fallback. -/
def jsOrElse (content : Option String) (fallback : String) : String :=
  match content with
  | some s => if s = "" then fallback else s
  | none => fallback

/-- `MemoryManager.getConversationSummary(conversationId)`.
Returns the new state, the summary text, and the number of inference calls
performed (0 on a cache hit or empty history, 1 otherwise — also when the
call throws, since the attempt was made).  All branches store the returned
text in the summary cache. -/
def getConversationSummary (st : MemState) (conversationId : String)
    (oracle : Except Unit (Option String)) : MemState × String × Nat :=
  match st.conversationSummaries conversationId with
  | some cached => (st, cached, 0)
  | none =>
    if (getConversationHistory st conversationId).isEmpty then
      ({ st with
          conversationSummaries :=
            mapSet st.conversationSummaries conversationId
              "No conversation history yet." },
        "No conversation history yet.", 0)
    else
      match oracle with
      | .ok content =>
        let summary := jsOrElse content "Unable to generate summary"
        ({ st with
            conversationSummaries :=
              mapSet st.conversationSummaries conversationId summary },
          summary, 1)
      | .error _ =>
        ({ st with
            conversationSummaries :=
              mapSet st.conversationSummaries conversationId
                "Error generating summary." },
          "Error generating summary.", 1)

/-! Basic facts about the map operations and `addMessage`. -/

theorem mapSet_same {α : Type} (m : String → Option α) (k : String) (v : α) :
    mapSet m k v k = some v := by
  simp [mapSet]

theorem mapSet_other {α : Type} (m : String → Option α) (k k' : String) (v : α)
    (h : k' ≠ k) : mapSet m k v k' = m k' := by
  simp [mapSet, h]

theorem mapDelete_same {α : Type} (m : String → Option α) (k : String) :
    mapDelete m k k = none := by
  simp [mapDelete]

theorem mapDelete_other {α : Type} (m : String → Option α) (k k' : String)
    (h : k' ≠ k) : mapDelete m k k' = m k' := by
  simp [mapDelete, h]

/-- A concrete memory state with one stored user message and a matching
pending entry for conversation `"c1"`. -/
def pendingExampleState : MemState where
  conversationHistories := fun c =>
    if c = "c1" then some [⟨.user, "hi", 0⟩] else none
  conversationSummaries := fun _ => none
  pendingUserMessages := fun c => if c = "c1" then some "hi" else none
  vectorstore := []

/-- A concrete memory state with no histories, summaries or pending entries. -/
def emptyExampleState : MemState where
  conversationHistories := fun _ => none
  conversationSummaries := fun _ => none
  pendingUserMessages := fun _ => none
  vectorstore := []

/-- A concrete memory state whose pending slot for `"c1"` holds the empty
string (reachable by `addMessage` with an empty user message). -/
def emptyStringPendingState : MemState where
  conversationHistories := fun c =>
    if c = "c1" then some [⟨.user, "", 0⟩] else none
  conversationSummaries := fun _ => none
  pendingUserMessages := fun c => if c = "c1" then some "" else none
  vectorstore := []

/-- Claim C3 counterexample: a PendingPair entry EXISTS for `"c1"` (it holds
the empty string), yet the assistant message indexes nothing — the vector
store is unchanged — and the pending entry is still present afterwards: the
source's truthiness check treats an empty pending text as absent. -/
theorem addMessage_empty_pending_not_indexed :
    emptyStringPendingState.pendingUserMessages "c1" = some "" ∧
    (addMessage emptyStringPendingState "c1" .assistant "reply" 7).vectorstore =
      emptyStringPendingState.vectorstore ∧
    (addMessage emptyStringPendingState "c1" .assistant "reply" 7).pendingUserMessages
      "c1" = some "" := by
  refine ⟨by decide, rfl, by decide⟩

/-- Claim C3 (amended): when `addMessage` runs with role `assistant` and a
pending user message exists for the conversation AND holds a non-empty
text, the vector store receives exactly one exchange — the pending user
text and the assistant text, each as one entry, both carrying the same
conversation id and the same (shared) timestamp — and the pending entry
for that conversation is gone afterwards.  (An empty pending text is falsy
for the source's truthiness check: nothing is indexed and the entry
remains.) -/
theorem addMessage_assistant_pairs_exchange
    (st : MemState) (conversationId message userMessage : String) (now : Nat)
    (h : st.pendingUserMessages conversationId = some userMessage)
    (hne : userMessage ≠ "") :
    (addMessage st conversationId .assistant message now).vectorstore =
      st.vectorstore ++
        [⟨userMessage, ⟨conversationId, roleString .user, now⟩⟩,
         ⟨message, ⟨conversationId, roleString .assistant, now⟩⟩] ∧
    (addMessage st conversationId .assistant message now).pendingUserMessages
      conversationId = none := by
  simp [addMessage, appendHistory, h, hne, mapDelete]

/-- Witness for claim C3 (amended) at a concrete state: conversation `"c1"`
has the non-empty pending user message `"hi"`, and adding an assistant
reply writes exactly the `("hi", reply)` exchange and clears the pending
slot. -/
theorem addMessage_assistant_pairs_exchange_witness :
    (pendingExampleState.pendingUserMessages "c1" = some "hi" ∧
      ("hi" : String) ≠ "") ∧
    ((addMessage pendingExampleState "c1" .assistant "reply" 7).vectorstore =
      pendingExampleState.vectorstore ++
        [⟨"hi", ⟨"c1", roleString .user, 7⟩⟩,
         ⟨"reply", ⟨"c1", roleString .assistant, 7⟩⟩] ∧
    (addMessage pendingExampleState "c1" .assistant "reply" 7).pendingUserMessages
      "c1" = none) :=
  ⟨⟨by decide, by decide⟩,
   addMessage_assistant_pairs_exchange pendingExampleState "c1" "reply" "hi" 7
     (by decide) (by decide)⟩

/-- Claim C4 counterexample: user `"hello"`, then an EMPTY second user
message, then an assistant message — no exchange at all reaches the vector
store (in particular none pairing the second user message with the
assistant text): the empty pending text is falsy for the source's
truthiness check. -/
theorem addMessage_empty_second_user_not_indexed :
    (addMessage (addMessage (addMessage emptyExampleState "c1" .user "hello" 1)
        "c1" .user "" 2) "c1" .assistant "answer" 3).vectorstore = [] ∧
    (addMessage (addMessage (addMessage emptyExampleState "c1" .user "hello" 1)
        "c1" .user "" 2) "c1" .assistant "answer" 3).pendingUserMessages
      "c1" = some "" := by
  refine ⟨rfl, by decide⟩

/-- Claim C4 (amended): two user messages with no assistant message in
between leave the vector store untouched, and — provided the second user
text is non-empty — the following assistant message pairs the second user
message (not the first) with the assistant text: the pending slot holds one
entry per conversation and a later user message unconditionally overwrites
an earlier unpaired one.  (An empty second user text is falsy for the
source's truthiness check, so nothing is indexed in that case.) -/
theorem addMessage_last_user_wins
    (st : MemState) (conversationId u1 u2 a : String) (t1 t2 t3 : Nat)
    (hne : u2 ≠ "") :
    (addMessage (addMessage st conversationId .user u1 t1)
      conversationId .user u2 t2).vectorstore = st.vectorstore ∧
    (addMessage (addMessage (addMessage st conversationId .user u1 t1)
        conversationId .user u2 t2) conversationId .assistant a t3).vectorstore =
      st.vectorstore ++
        [⟨u2, ⟨conversationId, roleString .user, t3⟩⟩,
         ⟨a, ⟨conversationId, roleString .assistant, t3⟩⟩] := by
  refine ⟨rfl, ?_⟩
  simp [addMessage, appendHistory, mapSet, mapDelete, hne]

/-- Witness for claim C4 (amended): `"hello"` then `"again"` then an
assistant `"answer"` — the indexed exchange pairs `"again"` with the
answer. -/
theorem addMessage_last_user_wins_witness :
    ("again" : String) ≠ "" ∧
    ((addMessage (addMessage emptyExampleState "c1" .user "hello" 1)
      "c1" .user "again" 2).vectorstore = emptyExampleState.vectorstore ∧
    (addMessage (addMessage (addMessage emptyExampleState "c1" .user "hello" 1)
        "c1" .user "again" 2) "c1" .assistant "answer" 3).vectorstore =
      emptyExampleState.vectorstore ++
        [⟨"again", ⟨"c1", roleString .user, 3⟩⟩,
         ⟨"answer", ⟨"c1", roleString .assistant, 3⟩⟩]) :=
  ⟨by decide,
   addMessage_last_user_wins emptyExampleState "c1" "hello" "again" "answer"
     1 2 3 (by decide)⟩

/-- Claim C7: an assistant message arriving with no pending user message for
its conversation is appended to the conversation history, while the vector
store, the pending map and the summary cache are all left unchanged (and the
total function raises no error). -/
theorem addMessage_assistant_no_pending
    (st : MemState) (conversationId message : String) (now : Nat)
    (h : st.pendingUserMessages conversationId = none) :
    (addMessage st conversationId .assistant message now).conversationHistories
        conversationId =
      some (getConversationHistory st conversationId ++
        [⟨.assistant, message, now⟩]) ∧
    (addMessage st conversationId .assistant message now).vectorstore =
      st.vectorstore ∧
    (addMessage st conversationId .assistant message now).pendingUserMessages =
      st.pendingUserMessages ∧
    (addMessage st conversationId .assistant message now).conversationSummaries =
      st.conversationSummaries := by
  simp [addMessage, appendHistory, h, mapSet, getConversationHistory]

/-- Witness for claim C7 at a concrete state with an empty pending map. -/
theorem addMessage_assistant_no_pending_witness :
    emptyExampleState.pendingUserMessages "c1" = none ∧
    ((addMessage emptyExampleState "c1" .assistant "reply" 3).conversationHistories
        "c1" =
      some (getConversationHistory emptyExampleState "c1" ++
        [⟨.assistant, "reply", 3⟩]) ∧
    (addMessage emptyExampleState "c1" .assistant "reply" 3).vectorstore =
      emptyExampleState.vectorstore ∧
    (addMessage emptyExampleState "c1" .assistant "reply" 3).pendingUserMessages =
      emptyExampleState.pendingUserMessages ∧
    (addMessage emptyExampleState "c1" .assistant "reply" 3).conversationSummaries =
      emptyExampleState.conversationSummaries) :=
  ⟨rfl, addMessage_assistant_no_pending emptyExampleState "c1" "reply" 3 rfl⟩

/-- Claim C10: `addMessage` only mutates state keyed by its own conversation
id — for any other conversation the history, the pending entry and the cached
summary are unchanged. -/
theorem addMessage_frame
    (st : MemState) (conversationId otherId message : String) (role : Role)
    (now : Nat) (h : otherId ≠ conversationId) :
    (addMessage st conversationId role message now).conversationHistories
        otherId = st.conversationHistories otherId ∧
    (addMessage st conversationId role message now).pendingUserMessages
        otherId = st.pendingUserMessages otherId ∧
    (addMessage st conversationId role message now).conversationSummaries
        otherId = st.conversationSummaries otherId := by
  cases role
  · simp [addMessage, appendHistory, mapSet, h]
  · cases hp : st.pendingUserMessages conversationId with
    | none => simp [addMessage, appendHistory, hp, mapSet, h]
    | some u =>
      by_cases hu : u = "" <;>
        simp [addMessage, appendHistory, hp, hu, mapSet, mapDelete, h]

/-- Witness for claim C10: adding a user message to `"c1"` leaves the state
of conversation `"c2"` untouched. -/
theorem addMessage_frame_witness :
    ("c2" : String) ≠ "c1" ∧
    ((addMessage pendingExampleState "c1" .user "more" 5).conversationHistories
        "c2" = pendingExampleState.conversationHistories "c2" ∧
    (addMessage pendingExampleState "c1" .user "more" 5).pendingUserMessages
        "c2" = pendingExampleState.pendingUserMessages "c2" ∧
    (addMessage pendingExampleState "c1" .user "more" 5).conversationSummaries
        "c2" = pendingExampleState.conversationSummaries "c2") :=
  ⟨by decide,
   addMessage_frame pendingExampleState "c1" "c2" "more" .user 5 (by decide)⟩

/-! Facts about the summary cache. -/

theorem getConversationSummary_hit (st : MemState) (conversationId s : String)
    (oracle : Except Unit (Option String))
    (h : st.conversationSummaries conversationId = some s) :
    getConversationSummary st conversationId oracle = (st, s, 0) := by
  unfold getConversationSummary
  rw [h]

theorem getConversationSummary_caches (st : MemState) (conversationId : String)
    (oracle : Except Unit (Option String)) :
    ((getConversationSummary st conversationId oracle).1).conversationSummaries
        conversationId =
      some (getConversationSummary st conversationId oracle).2.1 := by
  unfold getConversationSummary
  cases hc : st.conversationSummaries conversationId
  · by_cases he : (getConversationHistory st conversationId).isEmpty
    · simp [he, mapSet]
    · cases oracle <;> simp [he, mapSet]
  · exact hc

theorem getConversationSummary_count_le_one (st : MemState)
    (conversationId : String) (oracle : Except Unit (Option String)) :
    (getConversationSummary st conversationId oracle).2.2 ≤ 1 := by
  unfold getConversationSummary
  cases hc : st.conversationSummaries conversationId
  · by_cases he : (getConversationHistory st conversationId).isEmpty
    · simp [he]
    · cases oracle <;> simp [he]
  · simp

/-- Claim C6: two successive `getConversationSummary` calls for the same
conversation with no intervening state change perform at most one inference
call in total, the second call performs none and is a pure cache hit: it
returns the same text and the same state as the first call left behind,
whatever the two oracle outcomes are. -/
theorem getConversationSummary_cached_second_call (st : MemState)
    (conversationId : String) (o1 o2 : Except Unit (Option String)) :
    (getConversationSummary (getConversationSummary st conversationId o1).1
        conversationId o2).2.1 =
      (getConversationSummary st conversationId o1).2.1 ∧
    (getConversationSummary (getConversationSummary st conversationId o1).1
        conversationId o2).2.2 = 0 ∧
    (getConversationSummary st conversationId o1).2.2 ≤ 1 ∧
    (getConversationSummary (getConversationSummary st conversationId o1).1
        conversationId o2).1 =
      (getConversationSummary st conversationId o1).1 := by
  rw [getConversationSummary_hit _ _ _ o2
    (getConversationSummary_caches st conversationId o1)]
  exact ⟨rfl, rfl, getConversationSummary_count_le_one st conversationId o1, rfl⟩

/-- Claim C8: when the underlying embedding index fails (for any query,
optional conversation filter, limit and failure message), the failure is
caught and `searchConversations` returns the empty result list. -/
theorem searchConversations_fail_soft (query : String)
    (conversationId : Option String) (limit : Nat) (err : String) :
    searchConversations query conversationId limit (.error err) = [] :=
  rfl

/-! The financial-data extractor.  `JSON.parse` is modelled by an executable
JSON parser over the char list of the input; `responseText.match` with the
source's greedy brace regex is modelled by `jsonBraceMatch`. -/

/-- The opening-brace character. -/
def lbrace : Char := '\x7b'

/-- The closing-brace character. -/
def rbrace : Char := '\x7d'

/-- A JSON value as produced by `JSON.parse`.  Object members are kept as a
list in textual order (the parsed texts in this development carry no
duplicate keys). -/
inductive Json where
  | null
  | bool (b : Bool)
  | num (q : ℚ)
  | str (s : String)
  | arr (elements : List Json)
  | obj (members : List (String × Json))

/-- JSON insignificant whitespace. -/
def isJsonWs (c : Char) : Bool :=
  c = ' ' || c = '\t' || c = '\n' || c = '\r'

/-- Drop leading JSON whitespace. -/
def skipWs (cs : List Char) : List Char :=
  cs.dropWhile isJsonWs

/-- Numeric value of a decimal digit character. -/
def digitVal (c : Char) : Nat := c.toNat - 48

/-- Value of a big-endian decimal digit list. -/
def digitsVal (ds : List Char) : Nat :=
  ds.foldl (fun a c => 10 * a + digitVal c) 0

/-- Numeric value of a hexadecimal digit character, if it is one. -/
def hexVal (c : Char) : Option Nat :=
  if '0' ≤ c ∧ c ≤ '9' then some (c.toNat - 48)
  else if 'a' ≤ c ∧ c ≤ 'f' then some (c.toNat - 87)
  else if 'A' ≤ c ∧ c ≤ 'F' then some (c.toNat - 55)
  else none

/-- Parse the body of a JSON string literal (the opening quote already
consumed), handling the JSON escapes, and return the string together with
the remaining input.  Raw control characters are rejected, as `JSON.parse`
rejects them. -/
def parseStringBody : Nat → List Char → List Char → Option (String × List Char)
  | 0, _, _ => none
  | _ + 1, _, [] => none
  | fuel + 1, acc, c :: rest =>
    if c = '\"' then some (String.mk acc.reverse, rest)
    else if c = '\\' then
      match rest with
      | [] => none
      | e :: rest2 =>
        if e = '\"' then parseStringBody fuel ('\"' :: acc) rest2
        else if e = '\\' then parseStringBody fuel ('\\' :: acc) rest2
        else if e = '/' then parseStringBody fuel ('/' :: acc) rest2
        else if e = 'b' then parseStringBody fuel ('\x08' :: acc) rest2
        else if e = 'f' then parseStringBody fuel ('\x0c' :: acc) rest2
        else if e = 'n' then parseStringBody fuel ('\n' :: acc) rest2
        else if e = 'r' then parseStringBody fuel ('\r' :: acc) rest2
        else if e = 't' then parseStringBody fuel ('\t' :: acc) rest2
        else if e = 'u' then
          match rest2 with
          | h1 :: h2 :: h3 :: h4 :: rest3 =>
            match hexVal h1, hexVal h2, hexVal h3, hexVal h4 with
            | some v1, some v2, some v3, some v4 =>
              parseStringBody fuel
                (Char.ofNat (((v1 * 16 + v2) * 16 + v3) * 16 + v4) :: acc) rest3
            | _, _, _, _ => none
          | _ => none
        else none
    else if c.toNat < 32 then none
    else parseStringBody fuel (c :: acc) rest

/-- Parse an optional exponent part; yields exponent 0 when none is
present. -/
def parseExponent (cs : List Char) : Option (Int × List Char) :=
  match cs with
  | c :: t =>
    if c = 'e' ∨ c = 'E' then
      let (sgn, t2) : Int × List Char :=
        match t with
        | s :: t2 =>
          if s = '+' then (1, t2) else if s = '-' then (-1, t2) else (1, t)
        | [] => (1, t)
      let ed := t2.takeWhile Char.isDigit
      if ed.isEmpty then none
      else some (sgn * (digitsVal ed : Int), t2.drop ed.length)
    else some (0, cs)
  | [] => some (0, cs)

/-- Assemble a JSON number from its parsed parts. -/
def mkNum (neg : Bool) (intDigits fracDigits : List Char) (rest : List Char) :
    Option (ℚ × List Char) :=
  match parseExponent rest with
  | none => none
  | some (e, rest2) =>
    let mantissa : ℚ :=
      (digitsVal intDigits : ℚ) +
        (digitsVal fracDigits : ℚ) / (10 : ℚ) ^ fracDigits.length
    some ((if neg then -mantissa else mantissa) * (10 : ℚ) ^ (e : ℤ), rest2)

/-- Parse a JSON number (optional minus, integer part without leading
zeros, optional fraction, optional exponent). -/
def parseNumber (cs : List Char) : Option (ℚ × List Char) :=
  let (neg, cs1) :=
    match cs with
    | c :: t => if c = '-' then (true, t) else (false, cs)
    | [] => (false, ([] : List Char))
  let intDigits := cs1.takeWhile Char.isDigit
  if intDigits.isEmpty then none
  else if 1 < intDigits.length ∧ intDigits.head? = some '0' then none
  else
    let cs2 := cs1.drop intDigits.length
    match cs2 with
    | '.' :: t =>
      let fracDigits := t.takeWhile Char.isDigit
      if fracDigits.isEmpty then none
      else mkNum neg intDigits fracDigits (t.drop fracDigits.length)
    | _ => mkNum neg intDigits [] cs2

mutual

/-- Parse one JSON value; returns it with the remaining input. -/
def parseVal : Nat → List Char → Option (Json × List Char)
  | 0, _ => none
  | fuel + 1, cs =>
    match skipWs cs with
    | [] => none
    | c :: rest =>
      if c = '\"' then
        match parseStringBody (rest.length + 1) [] rest with
        | some (s, rest2) => some (.str s, rest2)
        | none => none
      else if c = lbrace then parseObjBody fuel rest []
      else if c = '[' then parseArrBody fuel rest []
      else if c = 't' then
        match rest with
        | 'r' :: 'u' :: 'e' :: rest2 => some (.bool true, rest2)
        | _ => none
      else if c = 'f' then
        match rest with
        | 'a' :: 'l' :: 's' :: 'e' :: rest2 => some (.bool false, rest2)
        | _ => none
      else if c = 'n' then
        match rest with
        | 'u' :: 'l' :: 'l' :: rest2 => some (.null, rest2)
        | _ => none
      else
        match parseNumber (c :: rest) with
        | some (q, rest2) => some (.num q, rest2)
        | none => none

/-- Parse object members, entered right after the opening brace (with `acc`
empty) or right after a separating comma (with `acc` nonempty). -/
def parseObjBody : Nat → List Char → List (String × Json) →
    Option (Json × List Char)
  | 0, _, _ => none
  | fuel + 1, cs, acc =>
    match skipWs cs with
    | [] => none
    | c :: rest =>
      if c = rbrace then
        if acc.isEmpty then some (.obj [], rest) else none
      else if c = '\"' then
        match parseStringBody (rest.length + 1) [] rest with
        | some (key, rest2) =>
          match skipWs rest2 with
          | ':' :: rest3 =>
            match parseVal fuel rest3 with
            | some (v, rest4) =>
              match skipWs rest4 with
              | ',' :: rest5 => parseObjBody fuel rest5 (acc ++ [(key, v)])
              | c2 :: rest5 =>
                if c2 = rbrace then some (.obj (acc ++ [(key, v)]), rest5)
                else none
              | [] => none
            | none => none
          | _ => none
        | none => none
      else none

/-- Parse array elements, entered right after the opening bracket (with
`acc` empty) or right after a separating comma (with `acc` nonempty). -/
def parseArrBody : Nat → List Char → List Json → Option (Json × List Char)
  | 0, _, _ => none
  | fuel + 1, cs, acc =>
    match skipWs cs with
    | [] => none
    | c :: rest =>
      if c = ']' ∧ acc.isEmpty then some (.arr [], rest)
      else
        match parseVal fuel (c :: rest) with
        | some (v, rest2) =>
          match skipWs rest2 with
          | ',' :: rest3 => parseArrBody fuel rest3 (acc ++ [v])
          | c2 :: rest3 =>
            if c2 = ']' then some (.arr (acc ++ [v]), rest3) else none
          | [] => none
        | none => none

end

/-- `JSON.parse`: parse the whole input as one JSON value; anything but
trailing whitespace after it is an error. -/
def jsonParse (s : String) : Option Json :=
  match parseVal (s.data.length + 1) s.data with
  | some (j, rest) => if (skipWs rest).isEmpty then some j else none
  | none => none

/-- The leftmost match of the greedy brace regex the source applies to
`responseText` (an opening brace, then any characters, then a closing
brace, with the middle part maximal): the match, when it exists, runs from
the first opening brace of the text to the last closing brace, and it
exists exactly when some closing brace comes after the first opening
brace. -/
def jsonBraceMatch (s : String) : Option String :=
  if (((s.data.dropWhile (· ≠ lbrace)).reverse.dropWhile
        (· ≠ rbrace)).reverse).isEmpty then
    none
  else
    some (String.mk (((s.data.dropWhile (· ≠ lbrace)).reverse.dropWhile
      (· ≠ rbrace)).reverse))

/-- Modelled from the spec: the claimed parse of the model output
"searching for the first balanced span" of braces — from the first opening
brace to the brace that closes it (depth counting), not to the last closing
brace of the whole text.  This definition follows the claim wording and is
compared against the source behaviour. -/
def balancedPrefix : List Char → Nat → List Char → Option (List Char)
  | [], _, _ => none
  | c :: rest, depth, acc =>
    if c = lbrace then balancedPrefix rest (depth + 1) (acc ++ [c])
    else if c = rbrace then
      if depth ≤ 1 then some (acc ++ [c])
      else balancedPrefix rest (depth - 1) (acc ++ [c])
    else balancedPrefix rest depth (acc ++ [c])

/-- Modelled from the spec: the first balanced brace span of a text. -/
def firstBalancedSpan (s : String) : Option String :=
  (balancedPrefix (s.data.dropWhile (· ≠ lbrace)) 0 []).map String.mk

/-- `MemoryManager.getDefaultFinancialData`: the zero-valued snapshot. -/
def getDefaultFinancialData : Json :=
  .obj
    [("assets",
      .obj [("rrsp", .num 0), ("tfsa", .num 0), ("investments", .num 0),
            ("realEstate", .num 0)]),
     ("liabilities",
      .obj [("mortgage", .num 0), ("creditCard", .num 0), ("loans", .num 0)]),
     ("goals",
      .obj [("retirement", .num 0), ("education", .num 0),
            ("emergency", .num 0)])]

/-- The two-character object text the source substitutes for a null or
empty model response. -/
def emptyObjectText : String := String.mk [lbrace, rbrace]

/-- `MemoryManager.generateFinancialDataFromConversation(conversationId,
clientName)`.  Returns the extracted JSON value (or the default snapshot)
together with the number of inference calls performed.  An empty history
short-circuits to the default with no call; a thrown inference call, a
response without a brace span, and a `JSON.parse` failure (caught by the
enclosing catch) all yield the default. -/
def generateFinancialDataFromConversation (st : MemState)
    (conversationId clientName : String)
    (oracle : Except Unit (Option String)) : Json × Nat :=
  if (getConversationHistory st conversationId).isEmpty then
    (getDefaultFinancialData, 0)
  else
    match oracle with
    | .error _ => (getDefaultFinancialData, 1)
    | .ok content =>
      let responseText := jsOrElse content emptyObjectText
      match jsonBraceMatch responseText with
      | some span =>
        match jsonParse span with
        | some financialData => (financialData, 1)
        | none => (getDefaultFinancialData, 1)
      | none => (getDefaultFinancialData, 1)

/-! Characterization of the greedy brace match. -/

theorem takeWhile_append_cons {α : Type} (p : α → Bool) (xs : List α) (y : α)
    (ys : List α) (hxs : ∀ x ∈ xs, p x = true) (hy : p y = false) :
    (xs ++ y :: ys).takeWhile p = xs := by
  induction xs with
  | nil => simp [List.takeWhile_cons, hy]
  | cons a t ih =>
    have ha := hxs a (by simp)
    simp only [List.cons_append, List.takeWhile_cons, ha]
    simp [ih fun x hx => hxs x (by simp [hx])]

theorem dropWhile_append_cons {α : Type} (p : α → Bool) (xs : List α) (y : α)
    (ys : List α) (hxs : ∀ x ∈ xs, p x = true) (hy : p y = false) :
    (xs ++ y :: ys).dropWhile p = y :: ys := by
  induction xs with
  | nil => simp [List.dropWhile_cons, hy]
  | cons a t ih =>
    have ha := hxs a (by simp)
    simp only [List.cons_append, List.dropWhile_cons, ha]
    simp [ih fun x hx => hxs x (by simp [hx])]

theorem dropWhile_head_false {α : Type} (p : α → Bool) (l : List α) (c : α)
    (t : List α) (h : l.dropWhile p = c :: t) : p c = false := by
  induction l with
  | nil => simp at h
  | cons a l ih =>
    by_cases ha : p a
    · rw [List.dropWhile_cons_of_pos ha] at h
      exact ih h
    · rw [List.dropWhile_cons_of_neg ha] at h
      cases h
      simpa using ha

/-- The greedy brace match on a text decomposed around its first opening
brace and its last closing brace is exactly the span between the two,
inclusive. -/
theorem jsonBraceMatch_eq_of_decomp (s : String) (pre mid post : List Char)
    (hdata : s.data = pre ++ lbrace :: mid ++ rbrace :: post)
    (hpre : lbrace ∉ pre) (hpost : rbrace ∉ post) :
    jsonBraceMatch s = some (String.mk (lbrace :: mid ++ [rbrace])) := by
  have hdata2 : s.data = pre ++ lbrace :: (mid ++ rbrace :: post) := by
    rw [hdata]
    simp
  have h1 : s.data.dropWhile (· ≠ lbrace) = lbrace :: (mid ++ rbrace :: post) := by
    rw [hdata2]
    exact dropWhile_append_cons _ pre lbrace (mid ++ rbrace :: post)
      (fun x hx => by
        simp only [decide_eq_true_eq]
        rintro rfl
        exact hpre hx)
      (by simp)
  have h2 : (s.data.dropWhile (· ≠ lbrace)).reverse =
      post.reverse ++ rbrace :: (mid.reverse ++ [lbrace]) := by
    rw [h1]
    simp
  have h3 : (s.data.dropWhile (· ≠ lbrace)).reverse.dropWhile (· ≠ rbrace) =
      rbrace :: (mid.reverse ++ [lbrace]) := by
    rw [h2]
    exact dropWhile_append_cons _ post.reverse rbrace (mid.reverse ++ [lbrace])
      (fun x hx => by
        simp only [List.mem_reverse] at hx
        simp only [decide_eq_true_eq]
        rintro rfl
        exact hpost hx)
      (by simp)
  unfold jsonBraceMatch
  rw [h3]
  simp

/-- If the greedy brace match succeeds on a text, the text contains an
opening brace with a closing brace somewhere after it. -/
theorem exists_decomp_of_jsonBraceMatch (s span : String)
    (h : jsonBraceMatch s = some span) :
    ∃ pre mid post, s.data = pre ++ lbrace :: mid ++ rbrace :: post := by
  unfold jsonBraceMatch at h
  by_cases hcore :
      (((s.data.dropWhile (· ≠ lbrace)).reverse.dropWhile
        (· ≠ rbrace)).reverse).isEmpty
  · rw [if_pos hcore] at h
    cases h
  · obtain ⟨t, hR⟩ : ∃ t, s.data.dropWhile (· ≠ lbrace) = lbrace :: t := by
      cases hR0 : s.data.dropWhile (· ≠ lbrace) with
      | nil =>
        rw [hR0] at hcore
        simp at hcore
      | cons c t =>
        have hc : c = lbrace := by
          have hfalse := dropWhile_head_false _ s.data c t hR0
          simpa using hfalse
        exact ⟨t, by rw [hc]⟩
    obtain ⟨u, hD⟩ : ∃ u,
        (s.data.dropWhile (· ≠ lbrace)).reverse.dropWhile (· ≠ rbrace) =
          rbrace :: u := by
      cases hD0 : (s.data.dropWhile (· ≠ lbrace)).reverse.dropWhile (· ≠ rbrace)
          with
      | nil =>
        rw [hD0] at hcore
        simp at hcore
      | cons d u =>
        have hd : d = rbrace := by
          have hfalse := dropWhile_head_false _ _ d u hD0
          simpa using hfalse
        exact ⟨u, by rw [hd]⟩
    have hRrev : lbrace :: t =
        u.reverse ++ rbrace ::
          ((s.data.dropWhile (· ≠ lbrace)).reverse.takeWhile
            (· ≠ rbrace)).reverse := by
      rw [← hR]
      conv_lhs =>
        rw [← List.reverse_reverse (s.data.dropWhile (· ≠ lbrace)),
          ← List.takeWhile_append_dropWhile (p := (· ≠ rbrace))
            (l := (s.data.dropWhile (· ≠ lbrace)).reverse)]
      rw [hD]
      simp
    cases hu : u.reverse with
    | nil =>
      rw [hu, List.nil_append] at hRrev
      injection hRrev with hhead _
      exact absurd hhead (by decide)
    | cons h1 t1 =>
      rw [hu, List.cons_append] at hRrev
      injection hRrev with hhead htail
      refine ⟨s.data.takeWhile (· ≠ lbrace), t1,
        ((s.data.dropWhile (· ≠ lbrace)).reverse.takeWhile
          (· ≠ rbrace)).reverse, ?_⟩
      conv_lhs =>
        rw [← List.takeWhile_append_dropWhile (p := (· ≠ lbrace)) (l := s.data),
          hR, htail]
      simp

/-- Claim C5: on a conversation with zero messages the extractor returns
exactly the zero-valued snapshot — assets, liabilities and goals all zero —
and performs no inference call, whatever outcome the inference backend
would have produced. -/
theorem generateFinancialData_empty_history (st : MemState)
    (conversationId clientName : String) (oracle : Except Unit (Option String))
    (h : getConversationHistory st conversationId = []) :
    generateFinancialDataFromConversation st conversationId clientName oracle =
      (Json.obj
        [("assets",
          .obj [("rrsp", .num 0), ("tfsa", .num 0), ("investments", .num 0),
                ("realEstate", .num 0)]),
         ("liabilities",
          .obj [("mortgage", .num 0), ("creditCard", .num 0),
                ("loans", .num 0)]),
         ("goals",
          .obj [("retirement", .num 0), ("education", .num 0),
                ("emergency", .num 0)])], 0) := by
  unfold generateFinancialDataFromConversation
  rw [h]
  rfl

/-- Witness for claim C5: an unknown conversation id has empty history, and
the extractor ignores an available parseable model response. -/
theorem generateFinancialData_empty_history_witness :
    getConversationHistory emptyExampleState "c9" = [] ∧
    generateFinancialDataFromConversation emptyExampleState "c9" "Alice"
        (.ok (some "\x7b\"x\":5\x7d")) =
      (Json.obj
        [("assets",
          .obj [("rrsp", .num 0), ("tfsa", .num 0), ("investments", .num 0),
                ("realEstate", .num 0)]),
         ("liabilities",
          .obj [("mortgage", .num 0), ("creditCard", .num 0),
                ("loans", .num 0)]),
         ("goals",
          .obj [("retirement", .num 0), ("education", .num 0),
                ("emergency", .num 0)])], 0) :=
  ⟨rfl,
   generateFinancialData_empty_history emptyExampleState "c9" "Alice"
     (.ok (some "\x7b\"x\":5\x7d")) rfl⟩

/-- Claim C2 (amended): for a conversation with at least one message, the
extractor applies the source's greedy brace regex to the model output: the
selected span runs from the first opening brace to the LAST closing brace
of the text (which is the first balanced span only when no later closing
brace follows it); the JSON decode of that span is returned when it
succeeds, and the zero-valued default when decoding fails or when the text
has no opening brace followed by a closing brace.  A null or empty model
output is first replaced by the literal two-character object text, which
decodes to the empty object rather than the zero-valued default. -/
theorem generateFinancialData_greedy_span (st : MemState)
    (conversationId clientName : String)
    (h : (getConversationHistory st conversationId).isEmpty = false) :
    (∀ text : String, ∀ pre mid post : List Char,
        text.data = pre ++ lbrace :: mid ++ rbrace :: post →
        lbrace ∉ pre → rbrace ∉ post →
        generateFinancialDataFromConversation st conversationId clientName
            (.ok (some text)) =
          ((jsonParse (String.mk (lbrace :: mid ++ [rbrace]))).getD
            getDefaultFinancialData, 1)) ∧
    (∀ text : String, text ≠ "" →
        (∀ pre mid post : List Char,
          text.data ≠ pre ++ lbrace :: mid ++ rbrace :: post) →
        generateFinancialDataFromConversation st conversationId clientName
            (.ok (some text)) = (getDefaultFinancialData, 1)) ∧
    generateFinancialDataFromConversation st conversationId clientName
        (.ok (some "")) = (Json.obj [], 1) ∧
    generateFinancialDataFromConversation st conversationId clientName
        (.ok none) = (Json.obj [], 1) := by
  refine ⟨?_, ?_, ?_, ?_⟩
  · intro text pre mid post hdata hpre hpost
    have htext : text ≠ "" := by
      intro hempty
      subst hempty
      have h0 : ([] : List Char) = pre ++ lbrace :: mid ++ rbrace :: post :=
        hdata
      simp at h0
    have hmatch := jsonBraceMatch_eq_of_decomp text pre mid post hdata hpre hpost
    have hrt : jsOrElse (some text) emptyObjectText = text := by
      simp [jsOrElse, htext]
    unfold generateFinancialDataFromConversation
    rw [if_neg (by simp [h])]
    simp only [hrt, hmatch]
    cases hp : jsonParse (String.mk (lbrace :: mid ++ [rbrace])) <;> simp [hp]
  · intro text htext hdecomp
    have hnone : jsonBraceMatch text = none := by
      cases hm : jsonBraceMatch text with
      | none => rfl
      | some span =>
        obtain ⟨pre, mid, post, hd⟩ :=
          exists_decomp_of_jsonBraceMatch text span hm
        exact absurd hd (hdecomp pre mid post)
    have hrt : jsOrElse (some text) emptyObjectText = text := by
      simp [jsOrElse, htext]
    unfold generateFinancialDataFromConversation
    rw [if_neg (by simp [h])]
    simp only [hrt, hnone]
  · unfold generateFinancialDataFromConversation
    rw [if_neg (by simp [h])]
    rfl
  · unfold generateFinancialDataFromConversation
    rw [if_neg (by simp [h])]
    rfl

/-- A model output whose first balanced brace span is followed by further
text with a later closing brace. -/
def greedyExampleText : String := "\x7b\"a\":1\x7d x \x7b\"b\":2\x7d"

/-- Claim C2 counterexample: on the model output consisting of two JSON
objects separated by junk, the first balanced span decodes successfully,
yet the extractor returns the zero-valued default, because the greedy regex
selects the undecodable span reaching the last closing brace.  Moreover an
empty model output yields the empty object, not the zero-valued default the
claim requires for a text without any JSON span. -/
theorem generateFinancialData_not_first_balanced :
    generateFinancialDataFromConversation pendingExampleState "c1" "Alice"
        (.ok (some greedyExampleText)) = (getDefaultFinancialData, 1) ∧
    (firstBalancedSpan greedyExampleText).bind jsonParse =
      some (Json.obj [("a", Json.num 1)]) ∧
    Json.obj [("a", Json.num 1)] ≠ getDefaultFinancialData ∧
    generateFinancialDataFromConversation pendingExampleState "c1" "Alice"
        (.ok (some "")) = (Json.obj [], 1) ∧
    Json.obj [] ≠ getDefaultFinancialData := by
  refine ⟨by with_unfolding_all rfl, by with_unfolding_all rfl, ?_,
    by with_unfolding_all rfl, ?_⟩
  · intro hcontra
    simp [getDefaultFinancialData] at hcontra
  · intro hcontra
    simp [getDefaultFinancialData] at hcontra

/-- A model output with prose before a single JSON object. -/
def spanExampleText : String := "ok \x7b\"a\":1\x7d"

/-- Witness for claim C2 (amended) at a concrete state and response. -/
theorem generateFinancialData_greedy_span_witness :
    (getConversationHistory pendingExampleState "c1").isEmpty = false ∧
    generateFinancialDataFromConversation pendingExampleState "c1" "Alice"
        (.ok (some spanExampleText)) =
      ((jsonParse (String.mk
          (lbrace :: ['\"', 'a', '\"', ':', '1'] ++ [rbrace]))).getD
        getDefaultFinancialData, 1) :=
  ⟨rfl,
   (generateFinancialData_greedy_span pendingExampleState "c1" "Alice" rfl).1
     spanExampleText ['o', 'k', ' '] ['\"', 'a', '\"', ':', '1'] []
     rfl (by decide) (by decide)⟩

/-! The report service (`reportService.ts`). -/

/-- `ReportData` from `reportService.ts`; `createdAt`/`updatedAt` are the
`new Date()` instants of the creating call. -/
structure ReportData where
  id : String
  clientName : String
  conversationId : String
  content : String
  financialData : Json
  createdAt : Nat
  updatedAt : Nat

/-- The mutable state of a `ReportService` instance: the `reports` map
keyed by report id. -/
structure ReportServiceState where
  reports : String → Option ReportData

/-- A fresh report service with an empty report map. -/
def emptyReportState : ReportServiceState := ⟨fun _ => none⟩

/-- `ReportService.getDefaultReportContent(clientName)`: the fixed markdown
fallback template, populated only with the client name.  (The indentation
whitespace of the TS template literal is elided; no claim inspects this
text.) -/
def getDefaultReportContent (clientName : String) : String :=
  "\n# Financial Report for " ++ clientName ++
  "\n\n## Executive Summary\nThis report provides a comprehensive analysis of your financial situation based on our recent conversation.\n\n## Financial Health Assessment\n- **Assets**: Please provide detailed information about your current assets\n- **Liabilities**: Please provide information about your current debts and obligations\n- **Net Worth**: Calculated based on assets minus liabilities\n\n## Recommended Investment Strategy\nBased on your financial goals and risk tolerance, we recommend:\n- Diversified portfolio approach\n- Regular contribution strategy\n- Risk management considerations\n\n## Risk Analysis\n- Market risk assessment\n- Personal risk factors\n- Mitigation strategies\n\n## Retirement Planning\n- Current retirement savings analysis\n- Projected retirement needs\n- Contribution recommendations\n\n## Tax Optimization Opportunities\n- Tax-efficient investment strategies\n- Contribution timing optimization\n- Tax-loss harvesting opportunities\n\n## Action Items and Next Steps\n1. Review and update financial goals\n2. Implement recommended investment strategy\n3. Schedule regular review meetings\n4. Monitor progress and adjust as needed\n\n*This report is based on the information provided during our conversation. Please contact your financial advisor for personalized recommendations.*\n"

/-- `ReportService.generateReportContent`: the narrative inference call.
The prompt (client name, preferences, transcript, serialized snapshot) is
input to the external model only and is absorbed by the oracle; a null or
empty response is replaced by the fixed string, and a thrown call is caught
and mapped to the fallback template. -/
def generateReportContent (clientName : String)
    (oracle : Except Unit (Option String)) : String :=
  match oracle with
  | .ok content => jsOrElse content "Unable to generate report"
  | .error _ => getDefaultReportContent clientName

/-- `ReportService.generateReport(conversationId, clientName, preferences?)`
at instant `now`: runs the extractor, assembles the narrative content, forms
the id from the conversation id and `Date.now()`, stores the record in the
report map under that id and returns it.  `preferences` and the transcript
feed the narrative prompt only. -/
def generateReport (rst : ReportServiceState) (mst : MemState)
    (conversationId clientName : String) (preferences : Option String)
    (extractionOracle narrativeOracle : Except Unit (Option String))
    (now : Nat) : ReportServiceState × ReportData :=
  let financialData :=
    (generateFinancialDataFromConversation mst conversationId clientName
      extractionOracle).1
  let reportContent := generateReportContent clientName narrativeOracle
  let reportId := "report_" ++ conversationId ++ "_" ++ Nat.repr now
  let reportData : ReportData :=
    ⟨reportId, clientName, conversationId, reportContent, financialData,
      now, now⟩
  ({ reports := mapSet rst.reports reportId reportData }, reportData)

/-- `ReportService.getReport(reportId)`: map lookup (`null` is `none`). -/
def getReport (rst : ReportServiceState) (reportId : String) :
    Option ReportData :=
  rst.reports reportId

/-! Decimal rendering of `Date.now()` values: digits of `Nat.repr`, its
injectivity, and injectivity of the report id format. -/

theorem toDigitsCore_append (b f n : Nat) (acc : List Char) :
    Nat.toDigitsCore b f n acc = Nat.toDigitsCore b f n [] ++ acc := by
  induction f generalizing n acc with
  | zero => simp [Nat.toDigitsCore]
  | succ f ih =>
    simp only [Nat.toDigitsCore]
    by_cases h0 : n / b = 0
    · simp [h0]
    · rw [if_neg h0, if_neg h0, ih (n / b) (Nat.digitChar (n % b) :: acc),
        ih (n / b) [Nat.digitChar (n % b)]]
      simp

theorem digitsVal_append_singleton (xs : List Char) (d : Char) :
    digitsVal (xs ++ [d]) = 10 * digitsVal xs + digitVal d := by
  simp [digitsVal, List.foldl_append]

theorem digitVal_digitChar (m : Nat) (h : m < 10) :
    digitVal (Nat.digitChar m) = m := by
  interval_cases m <;> decide

theorem digitsVal_toDigitsCore (f n : Nat) (h : n < f) :
    digitsVal (Nat.toDigitsCore 10 f n []) = n := by
  induction f generalizing n with
  | zero => omega
  | succ f ih =>
    simp only [Nat.toDigitsCore]
    by_cases h0 : n / 10 = 0
    · rw [if_pos h0]
      have hval : digitsVal [Nat.digitChar (n % 10)] =
          digitVal (Nat.digitChar (n % 10)) := by
        simp [digitsVal]
      rw [hval, digitVal_digitChar (n % 10) (Nat.mod_lt n (by omega))]
      omega
    · have hlt : n / 10 < f := by omega
      rw [if_neg h0, toDigitsCore_append, digitsVal_append_singleton,
        ih (n / 10) hlt, digitVal_digitChar (n % 10) (Nat.mod_lt n (by omega))]
      omega

theorem digitsVal_repr (n : Nat) : digitsVal (Nat.repr n).data = n :=
  digitsVal_toDigitsCore (n + 1) n (by omega)

theorem repr_injective (m n : Nat) (h : Nat.repr m = Nat.repr n) : m = n := by
  rw [← digitsVal_repr m, ← digitsVal_repr n, h]

theorem isDigit_digitChar (m : Nat) (h : m < 10) :
    (Nat.digitChar m).isDigit = true := by
  interval_cases m <;> decide

theorem toDigitsCore_digits (f n : Nat) (acc : List Char)
    (hacc : ∀ c ∈ acc, c.isDigit = true) :
    ∀ c ∈ Nat.toDigitsCore 10 f n acc, c.isDigit = true := by
  induction f generalizing n acc with
  | zero => simpa [Nat.toDigitsCore] using hacc
  | succ f ih =>
    simp only [Nat.toDigitsCore]
    by_cases h0 : n / 10 = 0
    · rw [if_pos h0]
      intro c hc
      rcases List.mem_cons.mp hc with hc | hc
      · subst hc
        exact isDigit_digitChar _ (Nat.mod_lt n (by omega))
      · exact hacc c hc
    · rw [if_neg h0]
      refine ih (n / 10) (Nat.digitChar (n % 10) :: acc) ?_
      intro c hc
      rcases List.mem_cons.mp hc with hc | hc
      · subst hc
        exact isDigit_digitChar _ (Nat.mod_lt n (by omega))
      · exact hacc c hc

theorem repr_data_digits (n : Nat) :
    ∀ c ∈ (Nat.repr n).data, c.isDigit = true :=
  toDigitsCore_digits (n + 1) n [] (by simp)

/-- The report id format `report_<conversationId>_<Date.now()>` determines
the conversation id and the instant: the decimal digits never contain an
underscore, so the id splits unambiguously at its last underscore. -/
theorem reportId_injective (c1 c2 : String) (n1 n2 : Nat)
    (h : "report_" ++ c1 ++ "_" ++ Nat.repr n1 =
      "report_" ++ c2 ++ "_" ++ Nat.repr n2) :
    c1 = c2 ∧ n1 = n2 := by
  have hdata := congrArg String.data h
  simp only [String.data_append] at hdata
  have h1 : c1.data ++ '_' :: (Nat.repr n1).data =
      c2.data ++ '_' :: (Nat.repr n2).data := by
    refine @List.append_cancel_left _ "report_".data _ _ ?_
    simpa [List.append_assoc] using hdata
  have hrev : (Nat.repr n1).data.reverse ++ '_' :: c1.data.reverse =
      (Nat.repr n2).data.reverse ++ '_' :: c2.data.reverse := by
    have h2 := congrArg List.reverse h1
    simpa [List.reverse_append, List.append_assoc] using h2
  have hmem : ∀ (n : Nat), ∀ x ∈ (Nat.repr n).data.reverse,
      (decide (x ≠ '_')) = true := by
    intro n x hx
    simp only [List.mem_reverse] at hx
    have := repr_data_digits n x hx
    simp only [decide_eq_true_eq]
    intro hx2
    subst hx2
    exact absurd this (by decide)
  have ht := congrArg (List.takeWhile (· ≠ '_')) hrev
  rw [takeWhile_append_cons _ _ _ _ (hmem n1) (by simp),
    takeWhile_append_cons _ _ _ _ (hmem n2) (by simp)] at ht
  have hd := congrArg (List.dropWhile (· ≠ '_')) hrev
  rw [dropWhile_append_cons _ _ _ _ (hmem n1) (by simp),
    dropWhile_append_cons _ _ _ _ (hmem n2) (by simp)] at hd
  constructor
  · injection hd with _ hd2
    have hc : c1.data = c2.data := by
      have h3 := congrArg List.reverse hd2
      simpa using h3
    exact String.ext hc
  · have hr : (Nat.repr n1).data = (Nat.repr n2).data := by
      have h3 := congrArg List.reverse ht
      simpa using h3
    exact repr_injective _ _ (String.ext hr)

/-- A first concrete report generation: conversation `"c"`, client
`"Alice"`, at instant 0, with both inference calls failing (so the default
snapshot and the fallback template are used). -/
def reportCall1 : ReportServiceState × ReportData :=
  generateReport emptyReportState emptyExampleState "c" "Alice" none
    (.error ()) (.error ()) 0

/-- A second generation for the same conversation in the same millisecond
(instant 0), for client `"Bob"`. -/
def collisionCall2 : ReportServiceState × ReportData :=
  generateReport reportCall1.1 emptyExampleState "c" "Bob" none
    (.error ()) (.error ()) 0

/-- A second generation for the same conversation one millisecond later
(instant 1), for client `"Bob"`. -/
def reportCall2 : ReportServiceState × ReportData :=
  generateReport reportCall1.1 emptyExampleState "c" "Bob" none
    (.error ()) (.error ()) 1

/-- Claim C1 counterexample: two `generateReport` calls for the same
conversation within the same `Date.now()` millisecond return the SAME id,
and afterwards the id maps to the second report (a different client name),
so the first report is no longer retrievable — id uniqueness per generation
call is not guaranteed by the id scheme. -/
theorem generateReport_same_instant_collision :
    reportCall1.2.id = collisionCall2.2.id ∧
    getReport collisionCall2.1 reportCall1.2.id = some collisionCall2.2 ∧
    reportCall1.2.clientName ≠ collisionCall2.2.clientName := by
  refine ⟨rfl, rfl, by decide⟩

/-- Claim C1 (amended): the id of a generated report is
`report_<conversationId>_<Date.now()>`; two generation calls receive
distinct ids provided they differ in conversation id or in millisecond
instant (`Date.now()` value), and then the first report is still
retrievable via `getReport` with its id after the second call.  (Two calls
for the same conversation in the same millisecond collide and the second
overwrites the first.) -/
theorem generateReport_distinct_ids (rst : ReportServiceState)
    (mst1 mst2 : MemState) (c1 c2 name1 name2 : String)
    (p1 p2 : Option String) (e1 g1 e2 g2 : Except Unit (Option String))
    (t1 t2 : Nat) (h : c1 ≠ c2 ∨ t1 ≠ t2) :
    (generateReport rst mst1 c1 name1 p1 e1 g1 t1).2.id =
      "report_" ++ c1 ++ "_" ++ Nat.repr t1 ∧
    (generateReport rst mst1 c1 name1 p1 e1 g1 t1).2.id ≠
      (generateReport (generateReport rst mst1 c1 name1 p1 e1 g1 t1).1 mst2
        c2 name2 p2 e2 g2 t2).2.id ∧
    getReport
        (generateReport (generateReport rst mst1 c1 name1 p1 e1 g1 t1).1 mst2
          c2 name2 p2 e2 g2 t2).1
        (generateReport rst mst1 c1 name1 p1 e1 g1 t1).2.id =
      some (generateReport rst mst1 c1 name1 p1 e1 g1 t1).2 := by
  have hne : ("report_" ++ c1 ++ "_" ++ Nat.repr t1 : String) ≠
      "report_" ++ c2 ++ "_" ++ Nat.repr t2 := by
    intro he
    obtain ⟨hc, hn⟩ := reportId_injective c1 c2 t1 t2 he
    rcases h with h | h
    · exact h hc
    · exact h hn
  refine ⟨rfl, hne, ?_⟩
  simp [generateReport, getReport, mapSet, hne]

/-- Witness for claim C1 (amended): same conversation, instants 0 and 1 —
distinct ids and the first report still retrievable. -/
theorem generateReport_distinct_ids_witness :
    (("c" : String) ≠ "c" ∨ (0 : Nat) ≠ 1) ∧
    (reportCall1.2.id = "report_" ++ "c" ++ "_" ++ Nat.repr 0 ∧
     reportCall1.2.id ≠ reportCall2.2.id ∧
     getReport reportCall2.1 reportCall1.2.id = some reportCall1.2) :=
  ⟨Or.inr (by decide),
   generateReport_distinct_ids emptyReportState emptyExampleState
     emptyExampleState "c" "c" "Alice" "Bob" none none (.error ()) (.error ())
     (.error ()) (.error ()) 0 1 (Or.inr (by decide))⟩

/-! `ReportService.generateChartsHTML`.  Dollar amounts are non-negative
integers (the snapshot defaults and the spec's non-negative amounts); the
JS floating-point width arithmetic is idealized over the rationals.  The
output is modelled by the tuple of dynamic values interpolated into the
fixed HTML+CSS template, in template order; the constant markup carries no
data and no claim inspects it. -/

/-- The `assets` group of the `FinancialData` interface. -/
structure Assets where
  rrsp : Nat
  tfsa : Nat
  investments : Nat
  realEstate : Nat
deriving DecidableEq, Repr

/-- The `liabilities` group of the `FinancialData` interface. -/
structure Liabilities where
  mortgage : Nat
  creditCard : Nat
  loans : Nat
deriving DecidableEq, Repr

/-- The `goals` group of the `FinancialData` interface. -/
structure Goals where
  retirement : Nat
  education : Nat
  emergency : Nat
deriving DecidableEq, Repr

/-- The `FinancialData` snapshot interface of `reportService.ts`. -/
structure FinancialData where
  assets : Assets
  liabilities : Liabilities
  goals : Goals
deriving DecidableEq, Repr

/-- Insert a comma after every three characters of a reversed digit list. -/
def groupRev : List Char → List Char
  | a :: b :: c :: d :: rest => a :: b :: c :: ',' :: groupRev (d :: rest)
  | l => l

/-- JS `Number.prototype.toLocaleString()` on a whole dollar amount in the
default en-US locale: decimal digits grouped in threes by commas. -/
def toLocaleString (n : Nat) : String :=
  String.mk (groupRev (Nat.repr n).data.reverse).reverse

/-- The dynamic values interpolated into the charts template, in template
order: one bar width percentage and one displayed dollar text per field. -/
structure ChartsHtml where
  rrspWidth : ℚ
  rrspValue : String
  tfsaWidth : ℚ
  tfsaValue : String
  investmentsWidth : ℚ
  investmentsValue : String
  realEstateWidth : ℚ
  realEstateValue : String
  mortgageWidth : ℚ
  mortgageValue : String
  creditCardWidth : ℚ
  creditCardValue : String
  loansWidth : ℚ
  loansValue : String
  retirementWidth : ℚ
  retirementValue : String
  educationWidth : ℚ
  educationValue : String
  emergencyWidth : ℚ
  emergencyValue : String

/-- `ReportService.generateChartsHTML(financialData)`: each width is the
source expression `Math.min((value / ceiling) * 100, 100)` and each value
text is `$` followed by `value.toLocaleString()`. -/
def generateChartsHTML (financialData : FinancialData) : ChartsHtml where
  rrspWidth := min ((financialData.assets.rrsp : ℚ) / 100000 * 100) 100
  rrspValue := "$" ++ toLocaleString financialData.assets.rrsp
  tfsaWidth := min ((financialData.assets.tfsa : ℚ) / 100000 * 100) 100
  tfsaValue := "$" ++ toLocaleString financialData.assets.tfsa
  investmentsWidth :=
    min ((financialData.assets.investments : ℚ) / 100000 * 100) 100
  investmentsValue := "$" ++ toLocaleString financialData.assets.investments
  realEstateWidth :=
    min ((financialData.assets.realEstate : ℚ) / 100000 * 100) 100
  realEstateValue := "$" ++ toLocaleString financialData.assets.realEstate
  mortgageWidth :=
    min ((financialData.liabilities.mortgage : ℚ) / 500000 * 100) 100
  mortgageValue := "$" ++ toLocaleString financialData.liabilities.mortgage
  creditCardWidth :=
    min ((financialData.liabilities.creditCard : ℚ) / 50000 * 100) 100
  creditCardValue := "$" ++ toLocaleString financialData.liabilities.creditCard
  loansWidth := min ((financialData.liabilities.loans : ℚ) / 100000 * 100) 100
  loansValue := "$" ++ toLocaleString financialData.liabilities.loans
  retirementWidth :=
    min ((financialData.goals.retirement : ℚ) / 1000000 * 100) 100
  retirementValue := "$" ++ toLocaleString financialData.goals.retirement
  educationWidth :=
    min ((financialData.goals.education : ℚ) / 100000 * 100) 100
  educationValue := "$" ++ toLocaleString financialData.goals.education
  emergencyWidth :=
    min ((financialData.goals.emergency : ℚ) / 50000 * 100) 100
  emergencyValue := "$" ++ toLocaleString financialData.goals.emergency

/-- Modelled from the spec wording: a bar width of
`min(value / fixedCeiling, 1.0) × 100%`. -/
def specBarWidth (value ceiling : ℚ) : ℚ :=
  min (value / ceiling) 1 * 100

theorem min_mul_hundred (x : ℚ) : min (x * 100) 100 = min x 1 * 100 := by
  rcases le_total x 1 with h | h
  · rw [min_eq_left h,
      min_eq_left (by nlinarith : x * 100 ≤ 100)]
  · rw [min_eq_right h,
      min_eq_right (by nlinarith : (100 : ℚ) ≤ x * 100)]
    norm_num

/-- The snapshot of the claim: RRSP at 150000, above its 100000 ceiling. -/
def chartsExample : FinancialData :=
  ⟨⟨150000, 0, 0, 0⟩, ⟨0, 0, 0⟩, ⟨0, 0, 0⟩⟩

/-- Claim C9: every field's bar width is `min(value / ceiling, 1.0) × 100`
with the fixed per-field ceilings, and on the snapshot with
`assets.rrsp = 150000` the RRSP bar width is exactly 100 while the
displayed text reads `$150,000`. -/
theorem generateChartsHTML_bar_widths :
    (∀ d : FinancialData,
      (generateChartsHTML d).rrspWidth = specBarWidth d.assets.rrsp 100000 ∧
      (generateChartsHTML d).tfsaWidth = specBarWidth d.assets.tfsa 100000 ∧
      (generateChartsHTML d).investmentsWidth =
        specBarWidth d.assets.investments 100000 ∧
      (generateChartsHTML d).realEstateWidth =
        specBarWidth d.assets.realEstate 100000 ∧
      (generateChartsHTML d).mortgageWidth =
        specBarWidth d.liabilities.mortgage 500000 ∧
      (generateChartsHTML d).creditCardWidth =
        specBarWidth d.liabilities.creditCard 50000 ∧
      (generateChartsHTML d).loansWidth =
        specBarWidth d.liabilities.loans 100000 ∧
      (generateChartsHTML d).retirementWidth =
        specBarWidth d.goals.retirement 1000000 ∧
      (generateChartsHTML d).educationWidth =
        specBarWidth d.goals.education 100000 ∧
      (generateChartsHTML d).emergencyWidth =
        specBarWidth d.goals.emergency 50000) ∧
    (generateChartsHTML chartsExample).rrspWidth = 100 ∧
    (generateChartsHTML chartsExample).rrspValue = "$150,000" := by
  refine ⟨fun d => ?_, ?_, by decide⟩
  · refine ⟨?_, ?_, ?_, ?_, ?_, ?_, ?_, ?_, ?_, ?_⟩ <;>
      exact (min_mul_hundred _).trans rfl
  · show min ((150000 : ℚ) / 100000 * 100) 100 = 100
    rw [min_eq_right (by norm_num)]

end Friedmann
